import Mathlib

/-!
Verification of the expense-dashboard component in src/pages/Home.tsx.

The component keeps an in-memory list of expense records, submits expenses to a
remote "coordinator" agent, parses the (possibly double-encoded) JSON envelope
the agent gateway returns, and lets a manager approve or reject a selected
record through a second agent call.  Everything below is a shallow embedding of
that component: the handlers become pure state-transition functions, the two
remote calls become explicit inputs (a success flag, an optional response
envelope and an optional error string), and the JSON values flowing through the
handlers become an inductive type.

Modelling conventions, used throughout:
* JavaScript runtime values reaching the handlers are untyped (the source casts
  the parsed payload with "as ValidationResult" without checking), so payload
  fields are modelled as JSON values, not as the TypeScript union types.
* JSON.parse is a browser builtin, not repository code: a value that is a JSON
  string is represented by the outcome of parsing it (none when parsing would
  throw), see ResponseField.jsonString.
* parseFloat and String(n) are likewise builtins; parseFloat is represented by
  keeping the raw numeric string (no claim concerns the parsed number, and
  floating point is outside the embedding), String(n) by a decimal printer.
* The cosmetic parts of the component (the staged progress counter, the
  isValidating / isProcessingApproval spinner flags, view routing, the audit
  filter inputs) do not touch the expense list and are not modelled.
-/

namespace ExpenseGuard

/-- JSON runtime values as they flow through the handlers.  Numbers are kept as
rationals; no branch of the verified code inspects a number. -/
inductive Json where
  | null
  | bool (b : Bool)
  | num (q : Rat)
  | str (s : String)
  | arr (elems : List Json)
  | obj (fields : List (String × Json))

mutual

/-- Structural decidable equality for Json (the derive handler does not support
this nested inductive). -/
def Json.decEq : (a b : Json) → Decidable (a = b)
  | .null, .null => isTrue rfl
  | .bool x, .bool y =>
    if h : x = y then isTrue (by rw [h]) else isFalse (fun hc => h (by cases hc; rfl))
  | .num x, .num y =>
    if h : x = y then isTrue (by rw [h]) else isFalse (fun hc => h (by cases hc; rfl))
  | .str x, .str y =>
    if h : x = y then isTrue (by rw [h]) else isFalse (fun hc => h (by cases hc; rfl))
  | .arr xs, .arr ys =>
    match Json.decEqList xs ys with
    | isTrue h => isTrue (by rw [h])
    | isFalse h => isFalse (fun hc => h (by cases hc; rfl))
  | .obj fs, .obj gs =>
    match Json.decEqFields fs gs with
    | isTrue h => isTrue (by rw [h])
    | isFalse h => isFalse (fun hc => h (by cases hc; rfl))
  | .null, .bool _ => isFalse (fun h => Json.noConfusion h)
  | .null, .num _ => isFalse (fun h => Json.noConfusion h)
  | .null, .str _ => isFalse (fun h => Json.noConfusion h)
  | .null, .arr _ => isFalse (fun h => Json.noConfusion h)
  | .null, .obj _ => isFalse (fun h => Json.noConfusion h)
  | .bool _, .null => isFalse (fun h => Json.noConfusion h)
  | .bool _, .num _ => isFalse (fun h => Json.noConfusion h)
  | .bool _, .str _ => isFalse (fun h => Json.noConfusion h)
  | .bool _, .arr _ => isFalse (fun h => Json.noConfusion h)
  | .bool _, .obj _ => isFalse (fun h => Json.noConfusion h)
  | .num _, .null => isFalse (fun h => Json.noConfusion h)
  | .num _, .bool _ => isFalse (fun h => Json.noConfusion h)
  | .num _, .str _ => isFalse (fun h => Json.noConfusion h)
  | .num _, .arr _ => isFalse (fun h => Json.noConfusion h)
  | .num _, .obj _ => isFalse (fun h => Json.noConfusion h)
  | .str _, .null => isFalse (fun h => Json.noConfusion h)
  | .str _, .bool _ => isFalse (fun h => Json.noConfusion h)
  | .str _, .num _ => isFalse (fun h => Json.noConfusion h)
  | .str _, .arr _ => isFalse (fun h => Json.noConfusion h)
  | .str _, .obj _ => isFalse (fun h => Json.noConfusion h)
  | .arr _, .null => isFalse (fun h => Json.noConfusion h)
  | .arr _, .bool _ => isFalse (fun h => Json.noConfusion h)
  | .arr _, .num _ => isFalse (fun h => Json.noConfusion h)
  | .arr _, .str _ => isFalse (fun h => Json.noConfusion h)
  | .arr _, .obj _ => isFalse (fun h => Json.noConfusion h)
  | .obj _, .null => isFalse (fun h => Json.noConfusion h)
  | .obj _, .bool _ => isFalse (fun h => Json.noConfusion h)
  | .obj _, .num _ => isFalse (fun h => Json.noConfusion h)
  | .obj _, .str _ => isFalse (fun h => Json.noConfusion h)
  | .obj _, .arr _ => isFalse (fun h => Json.noConfusion h)

/-- Decidable equality for lists of Json values. -/
def Json.decEqList : (a b : List Json) → Decidable (a = b)
  | [], [] => isTrue rfl
  | [], _ :: _ => isFalse (fun h => List.noConfusion h)
  | _ :: _, [] => isFalse (fun h => List.noConfusion h)
  | x :: xs, y :: ys =>
    match Json.decEq x y with
    | isTrue h1 =>
      match Json.decEqList xs ys with
      | isTrue h2 => isTrue (by rw [h1, h2])
      | isFalse h2 => isFalse (fun hc => h2 (by cases hc; rfl))
    | isFalse h1 => isFalse (fun hc => h1 (by cases hc; rfl))

/-- Decidable equality for Json object field lists. -/
def Json.decEqFields : (a b : List (String × Json)) → Decidable (a = b)
  | [], [] => isTrue rfl
  | [], _ :: _ => isFalse (fun h => List.noConfusion h)
  | _ :: _, [] => isFalse (fun h => List.noConfusion h)
  | (k, v) :: xs, (k2, v2) :: ys =>
    if hk : k = k2 then
      match Json.decEq v v2 with
      | isTrue h1 =>
        match Json.decEqFields xs ys with
        | isTrue h2 => isTrue (by rw [hk, h1, h2])
        | isFalse h2 => isFalse (fun hc => h2 (by cases hc; rfl))
      | isFalse h1 => isFalse (fun hc => h1 (by cases hc; rfl))
    else isFalse (fun hc => hk (by cases hc; rfl))

end

instance : DecidableEq Json := Json.decEq

/-- First-match lookup of a key in a JSON object's field list (JavaScript
property read on a plain object). -/
def lookupField : List (String × Json) → String → Option Json
  | [], _ => none
  | (k, v) :: rest, key => if k = key then some v else lookupField rest key

/-- JavaScript truthiness of a JSON value: null, false, 0 and the empty string
are falsy, everything else (including empty arrays and objects) is truthy. -/
def Json.truthy : Json → Bool
  | .null => false
  | .bool b => b
  | .num q => q != 0
  | .str s => s != ""
  | .arr _ => true
  | .obj _ => true

/-- Truthiness of a possibly-undefined value (none stands for undefined). -/
def jsTruthy : Option Json → Bool
  | none => false
  | some j => j.truthy

/-- Errors a handler body can run into; all of them reach the catch-all
exception handler of the respective source function. -/
inductive HandlerErr where
  | jsonParseThrow
  | typeError
  | invalidResponseStructure
deriving DecidableEq

/-- JavaScript property read v[key] on a possibly-undefined value: reading a
property of undefined or null throws a TypeError; reading it off any other
non-object primitive yields undefined; on an object it is field lookup. -/
def jsGetField : Option Json → String → Except HandlerErr (Option Json)
  | none, _ => .error .typeError
  | some .null, _ => .error .typeError
  | some (.obj fields), key => .ok (lookupField fields key)
  | some _, _ => .ok none

/-- The response field of the agent envelope (result.response.response in the
source).  A value that is a JSON string is represented by the outcome of
JSON.parse on it, since JSON.parse is a browser builtin: parsed = none models a
string on which JSON.parse throws. -/
inductive ResponseField where
  | jsonString (parsed : Option Json)
  | value (j : Json)
  | absent
deriving DecidableEq

/-- The envelope returned by the agent gateway (the NormalizedAgentResponse
object result.response of the source): its own response field and its result
field. -/
structure AgentEnvelope where
  response : ResponseField
  result : Option Json
deriving DecidableEq

/-- The dual-shape payload extraction both handlers perform (Home.tsx lines
568-579 in handleSubmitExpense and the identical lines 623-634 in
handleApprovalDecision): if the envelope's response field is a string, parse it
and read its result property; otherwise, if the envelope's result field is
truthy, use it directly; otherwise throw the Invalid-response-structure error.
The extracted payload is an Option Json because a property read can yield
undefined. -/
def extractPayload (env : AgentEnvelope) : Except HandlerErr (Option Json) :=
  match env.response with
  | .jsonString none => .error .jsonParseThrow
  | .jsonString (some parsed) => jsGetField (some parsed) "result"
  | _ =>
    if jsTruthy env.result then .ok env.result
    else .error .invalidResponseStructure

/-- Decimal digit characters of n, most significant first, via the fuel-indexed
helper below; models the JavaScript builtin String(n) for the natural numbers
the source passes to it. -/
def jsNatReprAux : (fuel n : ℕ) → List Char
  | 0, _ => []
  | fuel + 1, n =>
    if n = 0 then [] else jsNatReprAux fuel (n / 10) ++ [Nat.digitChar (n % 10)]

/-- Decimal representation of a natural number, as JavaScript String(n)
produces it. -/
def jsNatToString (n : ℕ) : String :=
  if n = 0 then "0" else ⟨jsNatReprAux n n⟩

/-- JavaScript s.padStart(3, the zero character): left-pad with zeros up to
length 3, leave longer strings unchanged. -/
def padStart3 (s : String) : String :=
  if 3 ≤ s.length then s else ⟨List.replicate (3 - s.length) '0' ++ s.data⟩

/-- The generated record identifier (Home.tsx line 585): the literal
"EXP-2026-" followed by String(expenses.length + 1).padStart(3, zero). -/
def expenseId (n : ℕ) : String :=
  "EXP-2026-" ++ padStart3 (jsNatToString n)

/-- One expense record of the in-memory list (interface ExpenseRecord,
Home.tsx lines 201-212).  The amount field keeps the raw numeric string (the
source stores parseFloat of it; the parsed floating-point number is outside the
embedding and no claim concerns it).  status and riskScore hold whatever
runtime value the unchecked casts produced, hence Option Json, with none for
undefined. -/
structure ExpenseRecord where
  id : String
  employee : String
  vendor : String
  amount : String
  date : String
  category : String
  status : Option Json
  riskScore : Option Json
  validationResult : Option Json
  receiptImage : Option String
deriving DecidableEq

/-- The JSON string value s, as stored in a record field. -/
def strVal (s : String) : Option Json :=
  some (Json.str s)

/-- Models the JavaScript builtin parseFloat at the chosen representation of
amounts (the raw numeric string); see the ExpenseRecord doc comment. -/
def jsParseFloat (s : String) : String := s

/-- The submission form fields (the expenseData state object). -/
structure ExpenseForm where
  vendor : String
  amount : String
  date : String
  category : String
deriving DecidableEq

/-- Outcome of one callAIAgent invocation: a success flag, an optional response
envelope, and an optional error string (the external contract of the agent
gateway). -/
structure CallResult where
  success : Bool
  response : Option AgentEnvelope
  error : Option String
deriving DecidableEq

/-- JavaScript x || fallback for an optional string x: the fallback is used
when x is undefined or falsy (the empty string). -/
def jsOrElse (x : Option String) (fallback : String) : String :=
  match x with
  | some s => if s = "" then fallback else s
  | none => fallback

/-- The initial expense list (Home.tsx line 229). -/
def initialExpenses : List ExpenseRecord := []

/-- The component state the handlers read and write: the expense list, the
submission-flow result and error, the selection, the manager rationale and the
approval result.  validationResult and approvalResult are Option (Option Json):
none for the null reset, some payload once set (the payload itself may be
undefined). -/
structure AppState where
  expenses : List ExpenseRecord
  selectedExpense : Option ExpenseRecord
  validationError : Option String
  validationResult : Option (Option Json)
  managerRationale : String
  approvalResult : Option (Option Json)
deriving DecidableEq

/-- The state on first render. -/
def initialAppState : AppState :=
  { expenses := initialExpenses
    selectedExpense := none
    validationError := none
    validationResult := none
    managerRationale := ""
    approvalResult := none }

/-- The new-record construction of handleSubmitExpense (Home.tsx lines
584-595): the object-literal field reads on the extracted payload, the status
ternary on final_recommendation, and riskScore taken from
validation_summary.risk_level.  A property read on an undefined or null payload
throws, which the enclosing handler catches. -/
def buildExpenseRecord (expenses : List ExpenseRecord) (form : ExpenseForm)
    (payload : Option Json) : Except HandlerErr ExpenseRecord :=
  match jsGetField payload "final_recommendation" with
  | .error e => .error e
  | .ok fr =>
    match jsGetField payload "validation_summary" with
    | .error e => .error e
    | .ok summary =>
      match jsGetField summary "risk_level" with
      | .error e => .error e
      | .ok rl =>
        .ok {
          id := expenseId (expenses.length + 1)
          employee := "Current User"
          vendor := form.vendor
          amount := jsParseFloat form.amount
          date := form.date
          category := form.category
          status := strVal (if fr = strVal "AUTO_APPROVE" then "approved"
            else if fr = strVal "MANAGER_REVIEW" then "reviewing" else "rejected")
          riskScore := rl
          validationResult := payload
          receiptImage := none }

/-- The submission handler (Home.tsx lines 542-606), with the remote call's
outcome passed in.  It resets the validation error and result, and then: on a
successful call with an envelope it extracts the payload (any thrown error is
caught and displayed as the generic network message), stores the payload, and
prepends the newly built record; on a reported failure it displays the call's
error string or the Validation-failed fallback. -/
def handleSubmitExpense (st : AppState) (form : ExpenseForm) (call : CallResult) :
    AppState :=
  let st0 := { st with validationError := none, validationResult := none }
  match call.success, call.response with
  | true, some env =>
    match extractPayload env with
    | .error _ => { st0 with validationError := some "Network error occurred" }
    | .ok payload =>
      let st1 := { st0 with validationResult := some payload }
      match buildExpenseRecord st1.expenses form payload with
      | .error _ => { st1 with validationError := some "Network error occurred" }
      | .ok newExpense => { st1 with expenses := newExpense :: st1.expenses }
  | _, _ =>
    { st0 with validationError := some (jsOrElse call.error "Validation failed") }

/-- The manager-decision handler (Home.tsx lines 612-653), with the remote
call's outcome passed in.  Without a selection it returns immediately.  It
resets the approval result; on a successful call with an envelope it extracts
the payload (any thrown error is caught and only logged), stores it, reads its
expense_status property (a throwing read is likewise only logged and the update
is abandoned), overwrites the status of every record whose id matches the
selected record's id, and clears the rationale.  A reported call failure
changes nothing further: no error state exists in this flow. -/
def handleApprovalDecision (st : AppState) (decision : String) (call : CallResult) :
    AppState :=
  match st.selectedExpense with
  | none => st
  | some selectedExpense =>
    let st0 := { st with approvalResult := none }
    match call.success, call.response with
    | true, some env =>
      match extractPayload env with
      | .error _ => st0
      | .ok payload =>
        let st1 := { st0 with approvalResult := some payload }
        match jsGetField payload "expense_status" with
        | .error _ => st1
        | .ok newStatus =>
          { st1 with
            expenses := st1.expenses.map (fun exp =>
              if exp.id = selectedExpense.id then { exp with status := newStatus }
              else exp)
            managerRationale := "" }
    | _, _ => st0

/-- The status filter over the expense list (Home.tsx lines 659-662): the
filter value "all" keeps everything, any other value keeps the records whose
status strictly equals it. -/
def filteredExpenses (expenses : List ExpenseRecord) (statusFilter : String) :
    List ExpenseRecord :=
  expenses.filter (fun exp =>
    if statusFilter = "all" then true
    else exp.status == strVal statusFilter)

/-- The submit-button guard (Home.tsx line 761): disabled while validating or
while vendor, amount or date is empty (JavaScript negation of a string tests
for the empty string). -/
def submitDisabled (isValidating : Bool) (expenseData : ExpenseForm) : Bool :=
  isValidating || expenseData.vendor == "" || expenseData.amount == ""
    || expenseData.date == ""

/-- One user-visible operation on the component state.  Submissions carry the
form contents and the remote call's outcome and are only enabled when the
submit guard is open; a selection comes from clicking a row, so the selected
record is a member of the list; a decision needs a non-empty rationale (the
approve and reject buttons are disabled otherwise). -/
inductive Step : AppState → AppState → Prop where
  | submit (st : AppState) (form : ExpenseForm) (call : CallResult)
      (henabled : submitDisabled false form = false) :
      Step st (handleSubmitExpense st form call)
  | select (st : AppState) (e : ExpenseRecord) (hmem : e ∈ st.expenses) :
      Step st { st with selectedExpense := some e }
  | setRationale (st : AppState) (text : String) :
      Step st { st with managerRationale := text }
  | decision (st : AppState) (d : String) (call : CallResult)
      (hrationale : st.managerRationale ≠ "") :
      Step st (handleApprovalDecision st d call)

/-- The states the component can reach from its first render. -/
inductive Reachable : AppState → Prop where
  | init : Reachable initialAppState
  | step {st st' : AppState} : Reachable st → Step st st' → Reachable st'

/-- Whether a manager-decision call runs to completion: the call reported
success with an envelope, the payload extraction did not throw, and the
expense_status property read did not throw.  Exactly in this case the handler
updates the list and clears the rationale; in every other case the failure is
only logged. -/
def decisionApplied (call : CallResult) : Bool :=
  match call.success, call.response with
  | true, some env =>
    match extractPayload env with
    | .ok payload =>
      match jsGetField payload "expense_status" with
      | .ok _ => true
      | .error _ => false
    | .error _ => false
  | _, _ => false

/-- The identifiers a list of n records carries when every record was produced
by the submission handler: expenseId n, expenseId (n-1), ..., expenseId 1,
newest first. -/
def idSeq (n : ℕ) : List String :=
  (List.range n).reverse.map (fun k => expenseId (k + 1))

/-- State invariant maintained by every operation: the record identifiers are
exactly the generated sequence for the current length, and a selected record's
identifier occurs in the list (selection always comes from the list, and no
operation removes an identifier). -/
def StateInv (st : AppState) : Prop :=
  st.expenses.map (fun e => e.id) = idSeq st.expenses.length ∧
    ∀ sel, st.selectedExpense = some sel → sel.id ∈ st.expenses.map (fun e => e.id)

/-- The submission of the spec's walkthrough scenario. -/
def demoForm : ExpenseForm :=
  { vendor := "Starbucks Coffee", amount := "12.50", date := "2026-01-10"
    category := "Business Meal" }

/-- A coordinator verdict: final_recommendation AUTO_APPROVE with risk_level
low. -/
def demoValidationPayload : Json :=
  .obj [("final_recommendation", .str "AUTO_APPROVE"),
        ("validation_summary", .obj [("risk_level", .str "low")])]

/-- A successful coordinator call whose envelope carries the verdict directly
in its result field. -/
def demoSubmitCall : CallResult :=
  { success := true
    response := some { response := .absent, result := some demoValidationPayload }
    error := none }

/-- The state after submitting the walkthrough expense with the AUTO_APPROVE
verdict. -/
def demoState1 : AppState :=
  handleSubmitExpense initialAppState demoForm demoSubmitCall

/-- The record that submission appends: approved, low risk, id EXP-2026-001. -/
def demoRecord : ExpenseRecord :=
  { id := "EXP-2026-001", employee := "Current User", vendor := "Starbucks Coffee"
    amount := "12.50", date := "2026-01-10", category := "Business Meal"
    status := strVal "approved", riskScore := strVal "low"
    validationResult := some demoValidationPayload, receiptImage := none }

/-- The state after the manager clicks the approved record in the expense
table (any rendered row is selectable, whatever its status). -/
def demoState2 : AppState :=
  { demoState1 with selectedExpense := some demoRecord }

/-- The state after the manager types a rationale. -/
def demoState3 : AppState :=
  { demoState2 with managerRationale := "second review requested" }

/-- An approval-agent verdict that rejects the expense. -/
def demoRejectPayload : Json :=
  .obj [("expense_status", .str "rejected")]

/-- A successful approval call carrying that verdict directly. -/
def demoDecisionCall : CallResult :=
  { success := true
    response := some { response := .absent, result := some demoRejectPayload }
    error := none }

/-- The state after the manager rejects the previously approved record. -/
def demoState4 : AppState :=
  handleApprovalDecision demoState3 "reject" demoDecisionCall

/-! ### The decimal printer and the generated identifiers -/

theorem jsNatReprAux_eq_digits (fuel : ℕ) : ∀ n : ℕ, n ≤ fuel →
    jsNatReprAux fuel n = (Nat.digits 10 n).reverse.map Nat.digitChar := by
  induction fuel with
  | zero =>
    intro n hn
    have h0 : n = 0 := Nat.le_zero.mp hn
    subst h0
    simp [jsNatReprAux]
  | succ fuel ih =>
    intro n hn
    by_cases h0 : n = 0
    · subst h0; simp [jsNatReprAux]
    · have hpos : 0 < n := Nat.pos_of_ne_zero h0
      have hdiv : n / 10 ≤ fuel := by
        have := Nat.div_lt_self hpos (by norm_num : 1 < 10)
        omega
      rw [jsNatReprAux, if_neg h0, ih _ hdiv,
        Nat.digits_def' (by norm_num : (1:ℕ) < 10) hpos]
      simp

theorem jsNatToString_data (n : ℕ) (h : n ≠ 0) :
    (jsNatToString n).data = (Nat.digits 10 n).reverse.map Nat.digitChar := by
  rw [jsNatToString, if_neg h]
  exact jsNatReprAux_eq_digits n n le_rfl

theorem digitChar_inj10 :
    ∀ x, x < 10 → ∀ y, y < 10 → Nat.digitChar x = Nat.digitChar y → x = y := by
  decide

theorem digitChar_ne_zero_char :
    ∀ d, d < 10 → d ≠ 0 → (Nat.digitChar d == '0') = false := by
  decide

theorem map_digitChar_inj :
    ∀ (l1 l2 : List ℕ), (∀ x ∈ l1, x < 10) → (∀ x ∈ l2, x < 10) →
      l1.map Nat.digitChar = l2.map Nat.digitChar → l1 = l2 := by
  intro l1
  induction l1 with
  | nil =>
    intro l2 _ _ h
    cases l2 with
    | nil => rfl
    | cons y ys => simp at h
  | cons x xs ih =>
    intro l2 h1 h2 h
    cases l2 with
    | nil => simp at h
    | cons y ys =>
      simp only [List.map_cons, List.cons.injEq] at h
      have hx := h1 x (List.mem_cons_self x xs)
      have hy := h2 y (List.mem_cons_self y ys)
      have hxy := digitChar_inj10 x hx y hy h.1
      have hrest := ih ys (fun z hz => h1 z (List.mem_cons_of_mem _ hz))
        (fun z hz => h2 z (List.mem_cons_of_mem _ hz)) h.2
      rw [hxy, hrest]

theorem jsNatToString_inj (a b : ℕ) (ha : a ≠ 0) (hb : b ≠ 0)
    (h : jsNatToString a = jsNatToString b) : a = b := by
  have hdata := congrArg String.data h
  rw [jsNatToString_data a ha, jsNatToString_data b hb] at hdata
  have hrev := map_digitChar_inj _ _
    (fun x hx => Nat.digits_lt_base (by norm_num) (List.mem_reverse.mp hx))
    (fun x hx => Nat.digits_lt_base (by norm_num) (List.mem_reverse.mp hx)) hdata
  have hdig : Nat.digits 10 a = Nat.digits 10 b := List.reverse_injective hrev
  calc a = Nat.ofDigits 10 (Nat.digits 10 a) := (Nat.ofDigits_digits 10 a).symm
    _ = Nat.ofDigits 10 (Nat.digits 10 b) := by rw [hdig]
    _ = b := Nat.ofDigits_digits 10 b

theorem dropZeros_replicate (k : ℕ) (l : List Char) :
    (List.replicate k '0' ++ l).dropWhile (fun c => c == '0') =
      l.dropWhile (fun c => c == '0') := by
  induction k with
  | zero => simp
  | succ k ih =>
    rw [List.replicate_succ, List.cons_append, List.dropWhile_cons]
    simp [ih]

theorem dropZeros_jsNatToString (n : ℕ) (h : n ≠ 0) :
    (jsNatToString n).data.dropWhile (fun c => c == '0') = (jsNatToString n).data := by
  have hne : Nat.digits 10 n ≠ [] := Nat.digits_ne_nil_iff_ne_zero.mpr h
  have hhead : (jsNatToString n).data.head? =
      some (Nat.digitChar ((Nat.digits 10 n).getLast hne)) := by
    rw [jsNatToString_data n h, List.head?_map, List.head?_reverse,
      List.getLast?_eq_getLast _ hne]
    rfl
  have hd0 : (Nat.digits 10 n).getLast hne ≠ 0 := Nat.getLast_digit_ne_zero 10 h
  have hd10 : (Nat.digits 10 n).getLast hne < 10 :=
    Nat.digits_lt_base (by norm_num) (List.getLast_mem hne)
  rcases hl : (jsNatToString n).data with _ | ⟨c, rest⟩
  · rfl
  · rw [hl] at hhead
    simp only [List.head?_cons, Option.some.injEq] at hhead
    rw [List.dropWhile_cons, hhead, digitChar_ne_zero_char _ hd10 hd0]
    simp

theorem dropZeros_padStart3 (s : String) :
    (padStart3 s).data.dropWhile (fun c => c == '0') =
      s.data.dropWhile (fun c => c == '0') := by
  rw [padStart3]
  split
  · rfl
  · exact dropZeros_replicate _ _

theorem padStart3_jsNat_inj (a b : ℕ) (ha : a ≠ 0) (hb : b ≠ 0)
    (h : padStart3 (jsNatToString a) = padStart3 (jsNatToString b)) : a = b := by
  apply jsNatToString_inj a b ha hb
  have hdz := congrArg (fun s : String => s.data.dropWhile (fun c => c == '0')) h
  simp only [dropZeros_padStart3, dropZeros_jsNatToString a ha,
    dropZeros_jsNatToString b hb] at hdz
  exact String.ext hdz

theorem expenseId_inj (a b : ℕ) (ha : a ≠ 0) (hb : b ≠ 0)
    (h : expenseId a = expenseId b) : a = b := by
  apply padStart3_jsNat_inj a b ha hb
  have hdata := congrArg String.data h
  rw [expenseId, expenseId] at hdata
  have hsplit : ("EXP-2026-").data ++ (padStart3 (jsNatToString a)).data =
      ("EXP-2026-").data ++ (padStart3 (jsNatToString b)).data := hdata
  exact String.ext (List.append_cancel_left hsplit)

theorem idSeq_nodup (n : ℕ) : (idSeq n).Nodup := by
  rw [idSeq]
  refine List.Nodup.map ?_ (List.nodup_reverse.mpr (List.nodup_range n))
  intro x y hxy
  have := expenseId_inj (x + 1) (y + 1) (Nat.succ_ne_zero x) (Nat.succ_ne_zero y) hxy
  omega

theorem idSeq_succ (n : ℕ) : idSeq (n + 1) = expenseId (n + 1) :: idSeq n := by
  rw [idSeq, idSeq, List.range_succ]
  simp

/-! ### Handler effects -/

theorem buildExpenseRecord_id (expenses : List ExpenseRecord) (form : ExpenseForm)
    (payload : Option Json) (rec : ExpenseRecord)
    (h : buildExpenseRecord expenses form payload = .ok rec) :
    rec.id = expenseId (expenses.length + 1) := by
  rw [buildExpenseRecord] at h
  split at h
  · simp at h
  · split at h
    · simp at h
    · split at h
      · simp at h
      · cases h
        rfl

theorem handleSubmitExpense_selected (st : AppState) (form : ExpenseForm)
    (call : CallResult) :
    (handleSubmitExpense st form call).selectedExpense = st.selectedExpense := by
  rw [handleSubmitExpense]
  dsimp only
  split
  · split
    · rfl
    · split <;> rfl
  · rfl

theorem handleSubmitExpense_expenses (st : AppState) (form : ExpenseForm)
    (call : CallResult) :
    (handleSubmitExpense st form call).expenses = st.expenses ∨
    ∃ rec, rec.id = expenseId (st.expenses.length + 1) ∧
      (handleSubmitExpense st form call).expenses = rec :: st.expenses := by
  rw [handleSubmitExpense]
  dsimp only
  split
  · split
    · exact Or.inl rfl
    · split
      · exact Or.inl rfl
      · rename_i payload rec hb
        exact Or.inr ⟨rec, buildExpenseRecord_id _ _ _ _ hb, rfl⟩
  · exact Or.inl rfl

theorem handleApprovalDecision_selected (st : AppState) (d : String)
    (call : CallResult) :
    (handleApprovalDecision st d call).selectedExpense = st.selectedExpense := by
  rw [handleApprovalDecision]
  split
  · rfl
  · dsimp only
    split
    · split
      · rfl
      · split <;> rfl
    · rfl

theorem handleApprovalDecision_expenses_cases (st : AppState) (d : String)
    (call : CallResult) :
    (handleApprovalDecision st d call).expenses = st.expenses ∨
    ∃ sel newStatus, st.selectedExpense = some sel ∧
      (handleApprovalDecision st d call).expenses =
        st.expenses.map (fun exp =>
          if exp.id = sel.id then { exp with status := newStatus } else exp) := by
  rw [handleApprovalDecision]
  split
  · exact Or.inl rfl
  · rename_i sel hs
    dsimp only
    split
    · split
      · exact Or.inl rfl
      · split
        · exact Or.inl rfl
        · rename_i newStatus hg
          exact Or.inr ⟨sel, newStatus, hs, rfl⟩
    · exact Or.inl rfl

theorem update_keeps_id (selId : String) (newStatus : Option Json)
    (exp : ExpenseRecord) :
    (if exp.id = selId then { exp with status := newStatus } else exp).id = exp.id := by
  by_cases h : exp.id = selId <;> simp [h]

theorem map_update_ids (l : List ExpenseRecord) (selId : String)
    (newStatus : Option Json) :
    (l.map (fun exp =>
      if exp.id = selId then { exp with status := newStatus } else exp)).map
        (fun e => e.id) = l.map (fun e => e.id) := by
  rw [List.map_map]
  congr 1
  funext exp
  exact update_keeps_id selId newStatus exp

/-! ### The reachability invariant -/

theorem stateInv_init : StateInv initialAppState := by
  constructor
  · rfl
  · intro sel hsel
    simp [initialAppState] at hsel

theorem stateInv_step {st st' : AppState} (hinv : StateInv st) (hs : Step st st') :
    StateInv st' := by
  rcases hinv with ⟨hids, hsel⟩
  cases hs with
  | submit form call henabled =>
    rcases handleSubmitExpense_expenses st form call with h | ⟨rec, hid, h⟩
    · exact ⟨by rw [h, hids], fun sel hs2 => by
        rw [h]
        exact hsel sel (by rw [← handleSubmitExpense_selected st form call, hs2])⟩
    · constructor
      · rw [h, List.map_cons, List.length_cons, hids, idSeq_succ, hid]
      · intro sel hs2
        rw [h, List.map_cons]
        exact List.mem_cons_of_mem _
          (hsel sel (by rw [← handleSubmitExpense_selected st form call, hs2]))
  | select e hmem =>
    refine ⟨hids, fun sel hs2 => ?_⟩
    simp only [Option.some.injEq] at hs2
    subst hs2
    exact List.mem_map_of_mem (fun r => r.id) hmem
  | setRationale text =>
    exact ⟨hids, hsel⟩
  | decision d call hrationale =>
    rcases handleApprovalDecision_expenses_cases st d call with h | ⟨sel, ns, hs1, h⟩
    · exact ⟨by rw [h, hids], fun sel hs2 => by
        rw [h]
        exact hsel sel (by rw [← handleApprovalDecision_selected st d call, hs2])⟩
    · constructor
      · rw [h, map_update_ids, List.length_map, hids]
      · intro sel2 hs2
        rw [h, map_update_ids]
        exact hsel sel2 (by rw [← handleApprovalDecision_selected st d call, hs2])

theorem reachable_inv {st : AppState} (h : Reachable st) : StateInv st := by
  induction h with
  | init => exact stateInv_init
  | step hr hs ih => exact stateInv_step ih hs

theorem reachable_ids_nodup {st : AppState} (h : Reachable st) :
    (st.expenses.map (fun e => e.id)).Nodup := by
  rw [(reachable_inv h).1]
  exact idSeq_nodup _

theorem countP_id_eq_one (l : List ExpenseRecord) (selId : String)
    (hnd : (l.map (fun e => e.id)).Nodup) (hmem : selId ∈ l.map (fun e => e.id)) :
    l.countP (fun e => e.id == selId) = 1 := by
  have h1 : l.countP (fun e => e.id == selId) =
      (l.map (fun e => e.id)).countP (fun s => s == selId) := by
    rw [List.countP_map]
    rfl
  rw [h1]
  exact List.count_eq_one_of_mem hnd hmem

/-! ### Reaching the demo states -/

theorem reachable_demoState1 : Reachable demoState1 :=
  Reachable.step Reachable.init
    (Step.submit initialAppState demoForm demoSubmitCall (by decide))

theorem reachable_demoState2 : Reachable demoState2 :=
  Reachable.step reachable_demoState1
    (Step.select demoState1 demoRecord (by decide))

theorem reachable_demoState3 : Reachable demoState3 :=
  Reachable.step reachable_demoState2
    (Step.setRationale demoState2 "second review requested")

/-! ### The claims -/

/-- C2: for every agent envelope whose response field is a JSON string encoding
an object with a (structured) result field R, the two-pass parse — parse the
string, then take its result field — yields the same structured result R as an
envelope whose result field directly contains R.  Both the submission parse and
the manager-decision parse are the same extraction, embodied by extractPayload,
so the equivalence holds in both. -/
theorem c2_shape_equivalence (outer rfields : List (String × Json))
    (resultField : Option Json) (rest : ResponseField)
    (hres : lookupField outer "result" = some (.obj rfields))
    (hnotstring : ∀ p, rest ≠ ResponseField.jsonString p) :
    extractPayload { response := .jsonString (some (.obj outer)), result := resultField }
      = .ok (some (.obj rfields)) ∧
    extractPayload { response := rest, result := some (.obj rfields) }
      = .ok (some (.obj rfields)) := by
  constructor
  · rw [extractPayload]
    dsimp only
    rw [jsGetField, hres]
  · cases rest with
    | jsonString p => exact absurd rfl (hnotstring p)
    | value j => simp [extractPayload, jsTruthy, Json.truthy]
    | absent => simp [extractPayload, jsTruthy, Json.truthy]

/-- Witness for C2 at a concrete double-encoded envelope and its direct
counterpart. -/
theorem c2_witness :
    extractPayload
      { response := .jsonString (some (.obj
          [("result", .obj [("final_recommendation", Json.str "AUTO_APPROVE")])]))
        result := none }
      = .ok (some (.obj [("final_recommendation", Json.str "AUTO_APPROVE")])) ∧
    extractPayload
      { response := .absent
        result := some (.obj [("final_recommendation", Json.str "AUTO_APPROVE")]) }
      = .ok (some (.obj [("final_recommendation", Json.str "AUTO_APPROVE")])) :=
  c2_shape_equivalence
    [("result", .obj [("final_recommendation", Json.str "AUTO_APPROVE")])]
    [("final_recommendation", Json.str "AUTO_APPROVE")]
    none ResponseField.absent rfl (fun p h => ResponseField.noConfusion h)

/-- C6: the submit action is disabled exactly when a validation is already in
flight or one of vendor, amount, date is the empty string, and enabled exactly
when all three are non-empty and no validation is in flight; the category field
never participates in the guard (replacing it leaves the guard unchanged). -/
theorem c6_submit_guard (isValidating : Bool) (expenseData : ExpenseForm) :
    (submitDisabled isValidating expenseData = true ↔
      isValidating = true ∨ expenseData.vendor = "" ∨ expenseData.amount = ""
        ∨ expenseData.date = "") ∧
    (submitDisabled isValidating expenseData = false ↔
      isValidating = false ∧ expenseData.vendor ≠ "" ∧ expenseData.amount ≠ ""
        ∧ expenseData.date ≠ "") ∧
    ∀ c, submitDisabled isValidating { expenseData with category := c }
      = submitDisabled isValidating expenseData := by
  refine ⟨?_, ?_, fun c => rfl⟩
  · cases isValidating <;> simp [submitDisabled, or_assoc]
  · cases isValidating <;> simp [submitDisabled, and_assoc]

/-- Witness for C6: the demo form enables the submit action when idle and the
in-flight flag alone disables it. -/
theorem c6_witness :
    submitDisabled false demoForm = false ∧ submitDisabled true demoForm = true := by
  have h1 := c6_submit_guard false demoForm
  have h2 := c6_submit_guard true demoForm
  exact ⟨h1.2.1.mpr ⟨rfl, by decide, by decide, by decide⟩, h2.1.mpr (Or.inl rfl)⟩

/-- C7: filtering by a status value other than "all" returns exactly the
records whose status field strictly equals that value, as a sublist (hence in
the original relative order); filtering by "all" returns the whole list
unchanged. -/
theorem c7_status_filter (expenses : List ExpenseRecord) (statusFilter : String) :
    (statusFilter = "all" → filteredExpenses expenses statusFilter = expenses) ∧
    (statusFilter ≠ "all" →
      filteredExpenses expenses statusFilter =
        expenses.filter (fun exp => exp.status == strVal statusFilter) ∧
      (filteredExpenses expenses statusFilter).Sublist expenses ∧
      ∀ exp ∈ expenses,
        (exp ∈ filteredExpenses expenses statusFilter ↔
          exp.status = strVal statusFilter)) := by
  constructor
  · intro h
    subst h
    simp [filteredExpenses]
  · intro h
    have heq : filteredExpenses expenses statusFilter =
        expenses.filter (fun exp => exp.status == strVal statusFilter) := by
      simp [filteredExpenses, h]
    refine ⟨heq, ?_, ?_⟩
    · rw [heq]
      exact List.filter_sublist _
    · intro exp hmem
      rw [heq, List.mem_filter]
      simp [hmem]

/-- Witness for C7 on the one-record demo list: "all" keeps the list, a
concrete status filters it. -/
theorem c7_witness :
    filteredExpenses demoState1.expenses "all" = demoState1.expenses ∧
    filteredExpenses demoState1.expenses "rejected" =
      demoState1.expenses.filter (fun exp => exp.status == strVal "rejected") := by
  exact ⟨(c7_status_filter demoState1.expenses "all").1 rfl,
    ((c7_status_filter demoState1.expenses "rejected").2 (by decide)).1⟩

/-- On a successful call whose payload extraction and record construction both
succeed, the submission handler prepends the built record. -/
theorem submit_success_expenses (st : AppState) (form : ExpenseForm)
    (call : CallResult) (env : AgentEnvelope) (payload : Option Json)
    (rec : ExpenseRecord)
    (hsucc : call.success = true) (hresp : call.response = some env)
    (hex : extractPayload env = .ok payload)
    (hbuild : buildExpenseRecord st.expenses form payload = .ok rec) :
    (handleSubmitExpense st form call).expenses = rec :: st.expenses := by
  rcases call with ⟨success, response, error⟩
  cases hsucc
  cases hresp
  rw [handleSubmitExpense]
  dsimp only
  rw [hex]
  dsimp only
  rw [hbuild]

/-- On a successful call whose payload extraction and expense_status read both
succeed, the decision handler maps the status overwrite over the list. -/
theorem decision_success_expenses (st : AppState) (d : String) (call : CallResult)
    (sel : ExpenseRecord) (env : AgentEnvelope) (payload newStatus : Option Json)
    (hsel : st.selectedExpense = some sel) (hsucc : call.success = true)
    (hresp : call.response = some env) (hex : extractPayload env = .ok payload)
    (hg : jsGetField payload "expense_status" = .ok newStatus) :
    (handleApprovalDecision st d call).expenses =
      st.expenses.map (fun exp =>
        if exp.id = sel.id then { exp with status := newStatus } else exp) := by
  rcases call with ⟨success, response, error⟩
  cases hsucc
  cases hresp
  rw [handleApprovalDecision, hsel]
  dsimp only
  rw [hex]
  dsimp only
  rw [hg]

/-- C8: a successful submission prepends the newly built record: the new list
is the new record consed onto the old one, the new record sits at index 0, and
every previously stored record is shifted back by one position unchanged. -/
theorem c8_prepend (st : AppState) (form : ExpenseForm) (call : CallResult)
    (env : AgentEnvelope) (payload : Option Json) (rec : ExpenseRecord)
    (hsucc : call.success = true) (hresp : call.response = some env)
    (hex : extractPayload env = .ok payload)
    (hbuild : buildExpenseRecord st.expenses form payload = .ok rec) :
    (handleSubmitExpense st form call).expenses = rec :: st.expenses ∧
    (handleSubmitExpense st form call).expenses[0]? = some rec ∧
    ∀ i : ℕ, (handleSubmitExpense st form call).expenses[i + 1]? = st.expenses[i]? := by
  have hmain := submit_success_expenses st form call env payload rec hsucc hresp hex hbuild
  refine ⟨hmain, ?_, fun i => ?_⟩
  · rw [hmain]
    simp
  · rw [hmain]
    simp

/-- Witness for C8: the demo submission prepends the demo record to the empty
initial list. -/
theorem c8_witness :
    demoState1.expenses = demoRecord :: initialAppState.expenses ∧
    demoState1.expenses[0]? = some demoRecord ∧
    demoState1.expenses[1]? = initialAppState.expenses[0]? := by
  have h := c8_prepend initialAppState demoForm demoSubmitCall
    { response := .absent, result := some demoValidationPayload }
    (some demoValidationPayload) demoRecord rfl rfl rfl rfl
  exact ⟨h.1, h.2.1, h.2.2 0⟩

/-- C1: for every successful coordinator response, the stored record's status
is "approved" when final_recommendation is AUTO_APPROVE, "reviewing" when it is
MANAGER_REVIEW and "rejected" for any other value, and the record's riskScore
equals the response's validation_summary.risk_level. -/
theorem c1_status_and_risk (st : AppState) (form : ExpenseForm) (call : CallResult)
    (env : AgentEnvelope) (fields vfields : List (String × Json)) (fr rl : Json)
    (hsucc : call.success = true) (hresp : call.response = some env)
    (hex : extractPayload env = .ok (some (.obj fields)))
    (hfr : lookupField fields "final_recommendation" = some fr)
    (hvs : lookupField fields "validation_summary" = some (.obj vfields))
    (hrl : lookupField vfields "risk_level" = some rl) :
    ∃ rec, (handleSubmitExpense st form call).expenses = rec :: st.expenses ∧
      rec.status = (if fr = .str "AUTO_APPROVE" then strVal "approved"
        else if fr = .str "MANAGER_REVIEW" then strVal "reviewing"
        else strVal "rejected") ∧
      rec.riskScore = some rl := by
  have hbuild : buildExpenseRecord st.expenses form (some (.obj fields)) =
      .ok { id := expenseId (st.expenses.length + 1), employee := "Current User"
            vendor := form.vendor, amount := jsParseFloat form.amount
            date := form.date, category := form.category
            status := strVal (if some fr = strVal "AUTO_APPROVE" then "approved"
              else if some fr = strVal "MANAGER_REVIEW" then "reviewing"
              else "rejected")
            riskScore := some rl, validationResult := some (.obj fields)
            receiptImage := none } := by
    simp [buildExpenseRecord, jsGetField, hfr, hvs, hrl]
  refine ⟨_, submit_success_expenses st form call env _ _ hsucc hresp hex hbuild,
    ?_, rfl⟩
  by_cases h1 : fr = Json.str "AUTO_APPROVE" <;>
    by_cases h2 : fr = Json.str "MANAGER_REVIEW" <;>
      simp_all [strVal]

/-- Witness for C1: the walkthrough submission stores an approved, low-risk
record. -/
theorem c1_witness :
    demoState1.expenses = demoRecord :: initialAppState.expenses ∧
    demoRecord.status = strVal "approved" ∧
    demoRecord.riskScore = some (Json.str "low") := by
  obtain ⟨rec, h1, h2, h3⟩ := c1_status_and_risk initialAppState demoForm
    demoSubmitCall { response := .absent, result := some demoValidationPayload }
    [("final_recommendation", Json.str "AUTO_APPROVE"),
     ("validation_summary", Json.obj [("risk_level", Json.str "low")])]
    [("risk_level", Json.str "low")] (Json.str "AUTO_APPROVE") (Json.str "low")
    rfl rfl rfl rfl rfl rfl
  have h4 : (handleSubmitExpense initialAppState demoForm demoSubmitCall).expenses =
      [demoRecord] := by decide
  have hrec : rec = demoRecord := by
    rw [h4] at h1
    simp [initialAppState, initialExpenses] at h1
    exact h1.symm
  subst hrec
  refine ⟨by decide, ?_, h3⟩
  simpa using h2

/-- C3: a manager decision on a selected record, with a successful response
carrying expense_status S, overwrites the status of exactly one record — the
one at the position whose id equals the selected record's id — with S, leaves
every other field of that record and every other record untouched, and keeps
the list's length (and hence order of positions). -/
theorem c3_decision_frame (st : AppState) (d : String) (call : CallResult)
    (sel : ExpenseRecord) (env : AgentEnvelope) (payload : Option Json)
    (statusVal : Json)
    (hreach : Reachable st) (hsel : st.selectedExpense = some sel)
    (hsucc : call.success = true) (hresp : call.response = some env)
    (hex : extractPayload env = .ok payload)
    (hstatus : jsGetField payload "expense_status" = .ok (some statusVal)) :
    (handleApprovalDecision st d call).expenses.length = st.expenses.length ∧
    st.expenses.countP (fun e => e.id == sel.id) = 1 ∧
    ∀ (i : ℕ) (h : i < st.expenses.length),
      ((st.expenses.get ⟨i, h⟩).id = sel.id →
        (handleApprovalDecision st d call).expenses[i]? =
          some { st.expenses.get ⟨i, h⟩ with status := some statusVal }) ∧
      ((st.expenses.get ⟨i, h⟩).id ≠ sel.id →
        (handleApprovalDecision st d call).expenses[i]? =
          some (st.expenses.get ⟨i, h⟩)) := by
  have hmain := decision_success_expenses st d call sel env payload
    (some statusVal) hsel hsucc hresp hex hstatus
  refine ⟨by rw [hmain, List.length_map],
    countP_id_eq_one st.expenses sel.id (reachable_ids_nodup hreach)
      ((reachable_inv hreach).2 sel hsel), ?_⟩
  intro i h
  constructor
  · intro hid
    have hid2 : st.expenses[i].id = sel.id := hid
    rw [hmain, List.getElem?_map, List.getElem?_eq_getElem h, Option.map_some',
      if_pos hid2]
    exact rfl
  · intro hid
    have hid2 : ¬st.expenses[i].id = sel.id := hid
    rw [hmain, List.getElem?_map, List.getElem?_eq_getElem h, Option.map_some',
      if_neg hid2]
    exact rfl

/-- Witness for C3: the demo decision overwrites exactly the selected record's
status. -/
theorem c3_witness :
    demoState4.expenses.length = demoState3.expenses.length ∧
    demoState3.expenses.countP (fun e => e.id == demoRecord.id) = 1 ∧
    demoState4.expenses[0]? =
      some { demoRecord with status := some (Json.str "rejected") } := by
  have h := c3_decision_frame demoState3 "reject" demoDecisionCall demoRecord
    { response := .absent, result := some demoRejectPayload }
    (some demoRejectPayload) (Json.str "rejected")
    reachable_demoState3 rfl rfl rfl rfl rfl
  refine ⟨h.1, h.2.1, ?_⟩
  have h0 := (h.2.2 0 (by decide)).1 (by decide)
  exact h0

/-- C4: a manager-decision attempt that fails — the call reports failure, the
envelope is missing, the payload extraction throws, or the expense_status read
throws — leaves the expense list and the rationale unchanged and sets no
user-visible error (the submission-flow error state is untouched; the decision
flow has no error state of its own).  The rationale is cleared exactly on the
fully successful path. -/
theorem c4_decision_failure_silent (st : AppState) (d : String) (call : CallResult)
    (sel : ExpenseRecord) (hsel : st.selectedExpense = some sel) :
    (handleApprovalDecision st d call).validationError = st.validationError ∧
    (decisionApplied call = false →
      (handleApprovalDecision st d call).expenses = st.expenses ∧
      (handleApprovalDecision st d call).managerRationale = st.managerRationale) ∧
    ((handleApprovalDecision st d call).managerRationale ≠ st.managerRationale →
      decisionApplied call = true ∧
      (handleApprovalDecision st d call).managerRationale = "") := by
  rcases call with ⟨success, response, error⟩
  rw [handleApprovalDecision, hsel]
  dsimp only
  cases success <;> rcases response with _ | env
  · exact ⟨rfl, fun _ => ⟨rfl, rfl⟩, fun hch => absurd rfl hch⟩
  · exact ⟨rfl, fun _ => ⟨rfl, rfl⟩, fun hch => absurd rfl hch⟩
  · exact ⟨rfl, fun _ => ⟨rfl, rfl⟩, fun hch => absurd rfl hch⟩
  · dsimp only
    rcases hex : extractPayload env with e | payload
    · exact ⟨rfl, fun _ => ⟨rfl, rfl⟩, fun hch => absurd rfl hch⟩
    · dsimp only
      rcases hg : jsGetField payload "expense_status" with e | newStatus
      · exact ⟨rfl, fun _ => ⟨rfl, rfl⟩, fun hch => absurd rfl hch⟩
      · refine ⟨rfl, ?_, fun hch => ⟨?_, rfl⟩⟩
        · intro hfalse
          have : decisionApplied ⟨true, some env, error⟩ = true := by
            rw [decisionApplied]
            dsimp only
            rw [hex]
            dsimp only
            rw [hg]
          rw [this] at hfalse
          cases hfalse
        · rw [decisionApplied]
          dsimp only
          rw [hex]
          dsimp only
          rw [hg]

/-- Witness for C4: a reported call failure leaves everything unchanged. -/
theorem c4_witness :
    (handleApprovalDecision demoState3 "approve"
      { success := false, response := none, error := some "agent offline" }).expenses =
      demoState3.expenses ∧
    (handleApprovalDecision demoState3 "approve"
      { success := false, response := none, error := some "agent offline" }).managerRationale =
      demoState3.managerRationale ∧
    (handleApprovalDecision demoState3 "approve"
      { success := false, response := none, error := some "agent offline" }).validationError =
      demoState3.validationError := by
  have h := c4_decision_failure_silent demoState3 "approve"
    ⟨false, none, some "agent offline"⟩ demoRecord rfl
  exact ⟨(h.2.1 rfl).1, (h.2.1 rfl).2, h.1⟩

/-- Counterexample to C5 as stated: on a successful call whose envelope matches
neither recognized shape, the Invalid-response-structure error is raised but
the validation error actually surfaced is the generic network message, not that
raised error. -/
theorem c5_counterexample :
    extractPayload { response := .absent, result := none } =
      .error .invalidResponseStructure ∧
    (handleSubmitExpense initialAppState demoForm
      { success := true, response := some { response := .absent, result := none }
        error := none }).validationError = some "Network error occurred" ∧
    "Network error occurred" ≠ "Invalid response structure" := by
  refine ⟨rfl, rfl, by decide⟩

/-- C5 (amended): a reported call failure (or missing envelope) displays the
call's error string or the "Validation failed" fallback; an unrecognized
payload shape raises the Invalid-response-structure error, which the generic
exception handler catches, surfacing the generic network message; any other
exception thrown during extraction or record construction surfaces the same
generic network message; and in every failure case the expense list is
unchanged. -/
theorem c5_failure_taxonomy (st : AppState) (form : ExpenseForm) (call : CallResult) :
    (¬(call.success = true ∧ call.response.isSome = true) →
      (handleSubmitExpense st form call).validationError =
        some (jsOrElse call.error "Validation failed") ∧
      (handleSubmitExpense st form call).expenses = st.expenses) ∧
    (∀ env e, call.success = true → call.response = some env →
      extractPayload env = .error e →
      (handleSubmitExpense st form call).validationError =
        some "Network error occurred" ∧
      (handleSubmitExpense st form call).expenses = st.expenses) ∧
    (∀ env payload e, call.success = true → call.response = some env →
      extractPayload env = .ok payload →
      buildExpenseRecord st.expenses form payload = .error e →
      (handleSubmitExpense st form call).validationError =
        some "Network error occurred" ∧
      (handleSubmitExpense st form call).expenses = st.expenses) ∧
    (∀ env : AgentEnvelope, (∀ p, env.response ≠ .jsonString p) →
      jsTruthy env.result = false →
      extractPayload env = .error .invalidResponseStructure) := by
  refine ⟨?_, ?_, ?_, ?_⟩
  · intro hfail
    rcases call with ⟨success, response, error⟩
    rw [handleSubmitExpense]
    cases success <;> rcases response with _ | env
    · exact ⟨rfl, rfl⟩
    · exact ⟨rfl, rfl⟩
    · exact ⟨rfl, rfl⟩
    · exact absurd ⟨rfl, rfl⟩ hfail
  · intro env e hsucc hresp hex
    rcases call with ⟨success, response, error⟩
    cases hsucc
    cases hresp
    rw [handleSubmitExpense]
    dsimp only
    rw [hex]
    exact ⟨rfl, rfl⟩
  · intro env payload e hsucc hresp hex hbuild
    rcases call with ⟨success, response, error⟩
    cases hsucc
    cases hresp
    rw [handleSubmitExpense]
    dsimp only
    rw [hex]
    dsimp only
    rw [hbuild]
    exact ⟨rfl, rfl⟩
  · intro env hnotstring htruthy
    rcases env with ⟨resp, res⟩
    cases resp with
    | jsonString p => exact absurd rfl (hnotstring p)
    | value j => simp [extractPayload, htruthy]
    | absent => simp [extractPayload, htruthy]

/-- Witness for the amended C5: a reported failure surfaces the call's error
string and leaves the list unchanged. -/
theorem c5_witness :
    (handleSubmitExpense initialAppState demoForm
      { success := false, response := none, error := some "agent offline" }).validationError =
      some "agent offline" ∧
    (handleSubmitExpense initialAppState demoForm
      { success := false, response := none, error := some "agent offline" }).expenses =
      initialAppState.expenses := by
  have h := (c5_failure_taxonomy initialAppState demoForm
    ⟨false, none, some "agent offline"⟩).1 (by simp)
  exact ⟨h.1, h.2⟩

/-- Counterexample to C9 as stated: a reachable sequence of operations — submit
an AUTO_APPROVE expense, select the resulting approved record in the expense
table (any rendered row is selectable, whatever its status), type a rationale,
reject it — changes the status of a record that was already "approved" to
"rejected". -/
theorem c9_counterexample :
    Reachable demoState3 ∧ Step demoState3 demoState4 ∧
    demoState3.expenses.map (fun e => (e.id, e.status)) =
      [("EXP-2026-001", strVal "approved")] ∧
    demoState4.expenses.map (fun e => (e.id, e.status)) =
      [("EXP-2026-001", strVal "rejected")] := by
  refine ⟨reachable_demoState3, ?_, by decide, by decide⟩
  exact Step.decision demoState3 "reject" demoDecisionCall (by decide)

/-- C9 (amended): status transitions are not one-way.  A manager decision
overwrites the selected record's status with whatever expense_status value the
agent returned, regardless of the record's current status (the theorem has no
hypothesis on it), so an approved or rejected record changes status again when
re-selected and re-decided; and a submission keeps every already stored record
verbatim, so decisions are the only operation that rewrites a record. -/
theorem c9_no_oneway_guard :
    (∀ (st : AppState) (d : String) (call : CallResult) (sel : ExpenseRecord)
       (env : AgentEnvelope) (payload newStatus : Option Json),
       st.selectedExpense = some sel → call.success = true →
       call.response = some env → extractPayload env = .ok payload →
       jsGetField payload "expense_status" = .ok newStatus →
       ∀ r ∈ st.expenses, r.id = sel.id →
         { r with status := newStatus } ∈ (handleApprovalDecision st d call).expenses) ∧
    (∀ (st : AppState) (form : ExpenseForm) (call : CallResult),
       ∀ r ∈ st.expenses, r ∈ (handleSubmitExpense st form call).expenses) := by
  constructor
  · intro st d call sel env payload newStatus hsel hsucc hresp hex hg r hr hid
    rw [decision_success_expenses st d call sel env payload newStatus
      hsel hsucc hresp hex hg]
    have hval : { r with status := newStatus } =
        (fun exp => if exp.id = sel.id then { exp with status := newStatus }
          else exp) r := by
      simp [hid]
    rw [hval]
    exact List.mem_map_of_mem _ hr
  · intro st form call r hr
    rcases handleSubmitExpense_expenses st form call with h | ⟨rec, _, h⟩
    · rw [h]
      exact hr
    · rw [h]
      exact List.mem_cons_of_mem _ hr

/-- Witness for the amended C9: the demo decision rewrites the approved demo
record to rejected, and a further submission keeps stored records verbatim. -/
theorem c9_witness :
    { demoRecord with status := some (Json.str "rejected") } ∈ demoState4.expenses ∧
    demoRecord ∈ (handleSubmitExpense demoState1 demoForm demoSubmitCall).expenses := by
  have h1 := (c9_no_oneway_guard).1 demoState3 "reject" demoDecisionCall demoRecord
    { response := .absent, result := some demoRejectPayload }
    (some demoRejectPayload) (some (Json.str "rejected"))
    rfl rfl rfl rfl rfl demoRecord (by decide) rfl
  have h2 := (c9_no_oneway_guard).2 demoState1 demoForm demoSubmitCall
    demoRecord (by decide)
  exact ⟨h1, h2⟩

/-- C10: in every reachable state the record identifiers are pairwise distinct;
indeed they are exactly the generated sequence — "EXP-2026-" followed by the
zero-padded successor of the length at each record's submission time — newest
first, and since the list only grows one record per successful submission and
records are never deleted, no two records ever share an id. -/
theorem c10_ids_distinct (st : AppState) (h : Reachable st) :
    (st.expenses.map (fun e => e.id)).Nodup ∧
    st.expenses.map (fun e => e.id) = idSeq st.expenses.length :=
  ⟨reachable_ids_nodup h, (reachable_inv h).1⟩

/-- Witness for C10 at the reachable one-record demo state. -/
theorem c10_witness :
    (demoState1.expenses.map (fun e => e.id)).Nodup ∧
    demoState1.expenses.map (fun e => e.id) = idSeq demoState1.expenses.length :=
  c10_ids_distinct demoState1 reachable_demoState1

end ExpenseGuard
